import Mathlib

/-!
Shallow embedding of `src/text_gen.py`: n-gram language-model construction and
random text generation.

Modelling conventions:
* A Python dictionary is an insertion-ordered association list
  (`List (κ × V)`): writing an existing key overwrites in place, writing a
  fresh key appends at the end, and iteration follows the list order.
* Python floats are exact rationals (`Rat`).
* The shared random source (`random.random()`) is an injected stream
  `rands : Nat → Rat` of draws in `[0, 1)`; the `i`-th call to the sampler
  consumes `rands i`.
* A Python exception (`KeyError`, `ZeroDivisionError`, a failed `assert`) is
  `none` in an `Option` result.
* The generators return the list of emitted tokens; the Python functions
  space-join that list and `rstrip`, which the spec classifies as
  presentation, not part of the core contract.
`text_to_list` (file I/O / tokenization) and the `*_main` drivers are out of
scope per the spec.
-/

namespace TextGen

abbrev Token := String

/-- A probability-distribution dictionary: item ↦ probability. -/
abbrev Dist (κ : Type) := List (κ × Rat)

/-- Dictionary read `d[k]` / membership test `k in d`: the binding of `k`,
if any. -/
def lookup {κ V : Type} [DecidableEq κ] : List (κ × V) → κ → Option V
  | [], _ => none
  | (k0, v0) :: rest, k => if k = k0 then some v0 else lookup rest k

/-- Dictionary write `d[k] = v`: overwrite the binding of `k` in place if it
exists, otherwise append the new binding (Python insertion order). -/
def update {κ V : Type} [DecidableEq κ] : List (κ × V) → κ → V → List (κ × V)
  | [], k, v => [(k, v)]
  | (k0, v0) :: rest, k, v =>
      if k = k0 then (k0, v) :: rest else (k0, v0) :: update rest k v

/-- Sum of a dictionary's values: `sum(d.values())`. -/
def sumValues {κ : Type} (d : List (κ × Rat)) : Rat := (d.map (·.2)).sum

/-- The `for item in distribution` loop of `select_random`: accumulate
`total += distribution[item]` and return the first item with `r < total`.
Falling off the end of the loop is the final `assert False` branch. -/
def selectLoop {κ : Type} (r : Rat) : Rat → List (κ × Rat) → Option κ
  | _, [] => none
  | total, (item, p) :: rest =>
      if r < total + p then some item else selectLoop r (total + p) rest

/-- `select_random(distribution)`, with the uniform draw `r` passed
explicitly.  `none` models both the entry `assert` (values do not sum to 1
within `1e-6`) and the fall-through `assert False`. -/
def select_random {κ : Type} (r : Rat) (distribution : List (κ × Rat)) :
    Option κ :=
  if |sumValues distribution - 1| < 1 / 1000000 then
    selectLoop r 0 distribution
  else none

/-- `counts_to_probabilities(counts)`: divide each count by the sum of all
counts.  On a non-empty dictionary whose counts sum to 0, Python raises
`ZeroDivisionError` at the first division (`none` here); on the empty
dictionary both loops run zero times, so `{}` is returned with no error. -/
def counts_to_probabilities {κ : Type} (counts : List (κ × Nat)) :
    Option (Dist κ) :=
  let total : Nat := (counts.map (·.2)).sum
  match counts with
  | [] => some []
  | _ :: _ =>
      if total = 0 then none
      else some (counts.map (fun kv => (kv.1, (kv.2 : Rat) / (total : Rat))))

/-- The counting loop of `calculate_unigrams`: `+= 1` for a seen word,
`= 1` for a fresh one. -/
def unigramCounts (word_list : List Token) : List (Token × Nat) :=
  word_list.foldl
    (fun unigrams word =>
      match lookup unigrams word with
      | some c => update unigrams word (c + 1)
      | none => update unigrams word 1)
    []

/-- `calculate_unigrams(word_list)`. -/
def calculate_unigrams (word_list : List Token) : Option (Dist Token) :=
  counts_to_probabilities (unigramCounts word_list)

/-- The context's inner count dictionary: the Python loops first ensure it
exists (`if word[0] not in bigrams: bigrams[word[0]] = {}` /
`trigrams[(word[0], word[1])] = {}` on a fresh context), so a fresh context
starts from `{}`. -/
def innerCounts {κ : Type} [DecidableEq κ]
    (grams : List (κ × List (Token × Nat))) (ctx : κ) : List (Token × Nat) :=
  match lookup grams ctx with
  | none => []
  | some inner => inner

/-- `= 1` for an unseen next word, `+= 1` for a seen one. -/
def incrCount (inner : List (Token × Nat)) (nxt : Token) : List (Token × Nat) :=
  match lookup inner nxt with
  | none => update inner nxt 1
  | some c => update inner nxt (c + 1)

/-- One counting step, shared by `calculate_bigrams` (context `word[0]`,
next word `word[1]`) and `calculate_trigrams` (context
`(word[0], word[1])`, next word `word[2]`).  In both Python functions the
branches net to this effect: ensure the context's inner dictionary exists,
then set the next word's count to 1 if absent, else increment it. -/
def gramCountStep {κ : Type} [DecidableEq κ]
    (grams : List (κ × List (Token × Nat))) (ctx : κ) (nxt : Token) :
    List (κ × List (Token × Nat)) :=
  update grams ctx (incrCount (innerCounts grams ctx) nxt)

/-- The loop of `calculate_bigrams` / `calculate_trigrams`: after each
pair/triple is counted, `tmp[ctx] = counts_to_probabilities(grams[ctx])`
re-normalizes that context's running counts, overwriting any earlier
normalization for the same context; the final `tmp` is returned
(`bigrams = tmp; return bigrams`). -/
def gramsGo {κ : Type} [DecidableEq κ] :
    List (κ × Token) → List (κ × List (Token × Nat)) → List (κ × Dist Token) →
    Option (List (κ × Dist Token))
  | [], _, tmp => some tmp
  | (ctx, nxt) :: rest, grams, tmp =>
      let grams1 := gramCountStep grams ctx nxt
      match counts_to_probabilities ((lookup grams1 ctx).getD []) with
      | none => none
      | some d => gramsGo rest grams1 (update tmp ctx d)

/-- `calculate_bigrams(word_list)`: iterate over
`zip(word_list, word_list[1:])`, context `word[0]`, next word `word[1]`. -/
def calculate_bigrams (word_list : List Token) :
    Option (List (Token × Dist Token)) :=
  gramsGo (word_list.zip word_list.tail) [] []

/-- `calculate_trigrams(word_list)`: iterate over
`zip(word_list, word_list[1:], word_list[2:])`, context
`(word[0], word[1])`, next word `word[2]`. -/
def calculate_trigrams (word_list : List Token) :
    Option (List ((Token × Token) × Dist Token)) :=
  gramsGo ((word_list.zip word_list.tail).zip word_list.tail.tail) [] []

/-- Per-context normalization of a finished count table. -/
def normAll {κ : Type} :
    List (κ × List (Token × Nat)) → Option (List (κ × Dist Token))
  | [] => some []
  | (ctx, cnts) :: rest =>
      match counts_to_probabilities cnts, normAll rest with
      | some d, some t => some ((ctx, d) :: t)
      | _, _ => none

/-- Modelled from the spec: the algorithm that first counts all pairs/triples
and only then normalizes each context's count table once ("After all pairs
are counted, normalize each context's count table independently into a
probability distribution"), stated for comparison with the incremental
re-normalization the source performs. -/
def countThenNormalize {κ : Type} [DecidableEq κ]
    (items : List (κ × Token)) : Option (List (κ × Dist Token)) :=
  normAll (items.foldl (fun grams it => gramCountStep grams it.1 it.2) [])

/-- The loop of `random_unigram_text`: draw `n` independent samples,
consuming the draws `rands i, rands (i+1), …`. -/
def random_unigram_go (unigrams : Dist Token) (rands : Nat → Rat) :
    Nat → Nat → Option (List Token)
  | _, 0 => some []
  | i, n + 1 =>
      match select_random (rands i) unigrams with
      | none => none
      | some next_word =>
          (random_unigram_go unigrams rands (i + 1) n).map
            (fun rest => next_word :: rest)

/-- `random_unigram_text(unigrams, num_words)`: `range(num_words)` runs
`num_words` times (zero times when `num_words ≤ 0`). -/
def random_unigram_text (unigrams : Dist Token) (num_words : Int)
    (rands : Nat → Rat) : Option (List Token) :=
  random_unigram_go unigrams rands 0 num_words.toNat

/-- The loop of `random_bigram_text`:
`next_word = select_random(bigrams[next_word])`, appending each sampled
word; indexing with a token that is not a context key is a `KeyError`. -/
def random_bigram_go (bigrams : List (Token × Dist Token)) (rands : Nat → Rat) :
    Token → Nat → Nat → Option (List Token)
  | _, _, 0 => some []
  | next_word, i, n + 1 =>
      match lookup bigrams next_word with
      | none => none
      | some d =>
          match select_random (rands i) d with
          | none => none
          | some w =>
              (random_bigram_go bigrams rands w (i + 1) n).map
                (fun rest => w :: rest)

/-- `random_bigram_text(first_word, bigrams, num_words)`: emit `first_word`
and one word sampled from `bigrams[first_word]`, then loop
`xrange(num_words - 2)` times (zero times when `num_words ≤ 2`). -/
def random_bigram_text (first_word : Token)
    (bigrams : List (Token × Dist Token)) (num_words : Int)
    (rands : Nat → Rat) : Option (List Token) :=
  match lookup bigrams first_word with
  | none => none
  | some d =>
      match select_random (rands 0) d with
      | none => none
      | some next_word =>
          (random_bigram_go bigrams rands next_word 1
              (num_words - 2).toNat).map
            (fun rest => first_word :: next_word :: rest)

/-- The loop of `random_trigram_text`.  Each Python iteration opens with the
shift `first_word = second_word; second_word = next_word`; a call
`random_trigram_go … first_word second_word …` holds the context *after*
that shift.  If `(first_word, second_word)` is a trigram key its
distribution is sampled, otherwise `bigrams[first_word]` — the older of the
two context tokens — is sampled (a `KeyError` if that too is absent); the
sampled word is appended and becomes the newest context token. -/
def random_trigram_go (bigrams : List (Token × Dist Token))
    (trigrams : List ((Token × Token) × Dist Token)) (rands : Nat → Rat) :
    Token → Token → Nat → Nat → Option (List Token)
  | _, _, _, 0 => some []
  | first_word, second_word, i, n + 1 =>
      match lookup trigrams (first_word, second_word) with
      | some d =>
          match select_random (rands i) d with
          | none => none
          | some next_word =>
              (random_trigram_go bigrams trigrams rands second_word next_word
                  (i + 1) n).map (fun rest => next_word :: rest)
      | none =>
          match lookup bigrams first_word with
          | none => none
          | some d =>
              match select_random (rands i) d with
              | none => none
              | some next_word =>
                  (random_trigram_go bigrams trigrams rands second_word
                      next_word (i + 1) n).map
                    (fun rest => next_word :: rest)

/-- `random_trigram_text(first_word, second_word, bigrams, trigrams,
num_words)`: emit the two seed words, then draw `next_word` from
`trigrams[(first_word, second_word)]` — a bare indexing, so a missing seed
context is a `KeyError` with no bigram fallback — and run the loop
`xrange(num_words - 2)` times.  The loop shifts the context onto
`(second_word, next_word)` before sampling and only appends the words it
samples itself, so the pre-loop sample serves only as context and is never
appended to the output. -/
def random_trigram_text (first_word second_word : Token)
    (bigrams : List (Token × Dist Token))
    (trigrams : List ((Token × Token) × Dist Token)) (num_words : Int)
    (rands : Nat → Rat) : Option (List Token) :=
  match lookup trigrams (first_word, second_word) with
  | none => none
  | some d =>
      match select_random (rands 0) d with
      | none => none
      | some next_word =>
          (random_trigram_go bigrams trigrams rands second_word next_word 1
              (num_words - 2).toNat).map
            (fun rest => first_word :: second_word :: rest)

/-! ## Dictionary lemmas -/

theorem lookup_update_self {κ V : Type} [DecidableEq κ]
    (d : List (κ × V)) (k : κ) (v : V) : lookup (update d k v) k = some v := by
  induction d with
  | nil => simp [update, lookup]
  | cons kv rest ih =>
      obtain ⟨k0, v0⟩ := kv
      by_cases h : k = k0
      · subst h; simp [update, lookup]
      · simp [update, lookup, h, ih]

theorem lookup_update_ne {κ V : Type} [DecidableEq κ]
    (d : List (κ × V)) (k k1 : κ) (v : V) (h : k1 ≠ k) :
    lookup (update d k v) k1 = lookup d k1 := by
  induction d with
  | nil => simp [update, lookup, h]
  | cons kv rest ih =>
      obtain ⟨k0, v0⟩ := kv
      by_cases hk : k = k0
      · subst hk; simp [update, lookup, h]
      · by_cases h1 : k1 = k0
        · subst h1; simp [update, lookup, hk]
        · simp [update, lookup, hk, h1, ih]

theorem mem_update {κ V : Type} [DecidableEq κ]
    (d : List (κ × V)) (k : κ) (v : V) (p : κ × V) (hp : p ∈ update d k v) :
    p ∈ d ∨ p = (k, v) := by
  induction d with
  | nil => simp [update] at hp; right; exact hp
  | cons kv rest ih =>
      obtain ⟨k0, v0⟩ := kv
      by_cases h : k = k0
      · subst h
        simp [update] at hp
        rcases hp with h | h
        · right; simp [h]
        · left; simp [h]
      · simp [update, h] at hp
        rcases hp with h1 | h1
        · left; simp [h1]
        · rcases ih h1 with h2 | h2
          · left; simp [h2]
          · right; exact h2

theorem update_ne_nil {κ V : Type} [DecidableEq κ]
    (d : List (κ × V)) (k : κ) (v : V) : update d k v ≠ [] := by
  cases d with
  | nil => simp [update]
  | cons kv rest =>
      obtain ⟨k0, v0⟩ := kv
      by_cases h : k = k0 <;> simp [update, h]

theorem lookup_mem {κ V : Type} [DecidableEq κ]
    (d : List (κ × V)) (k : κ) (v : V) (h : lookup d k = some v) : (k, v) ∈ d := by
  induction d with
  | nil => simp [lookup] at h
  | cons kv rest ih =>
      obtain ⟨k0, v0⟩ := kv
      by_cases hk : k = k0
      · subst hk
        simp [lookup] at h
        simp [h]
      · simp [lookup, hk] at h
        simp [ih h]

theorem lookup_div_map {κ : Type} [DecidableEq κ] (x : Rat)
    (d : List (κ × Nat)) (k : κ) :
    lookup (d.map (fun kv => (kv.1, (kv.2 : Rat) / x))) k =
      (lookup d k).map (fun c => (c : Rat) / x) := by
  induction d with
  | nil => simp [lookup]
  | cons kv rest ih =>
      obtain ⟨k0, v0⟩ := kv
      by_cases h : k = k0 <;> simp [lookup, h, ih]

/-! ## Sampling: `select_random` (C6) -/

theorem selectLoop_mem {κ : Type} (r : Rat) :
    ∀ (d : List (κ × Rat)) (total : Rat), d ≠ [] → r < total + sumValues d →
      ∃ k, selectLoop r total d = some k ∧ k ∈ d.map (·.1) := by
  intro d
  induction d with
  | nil => intro total h _; exact absurd rfl h
  | cons ip rest ih =>
      intro total _ hlt
      obtain ⟨item, p⟩ := ip
      by_cases h : r < total + p
      · refine ⟨item, ?_, by simp⟩
        show (if r < total + p then some item
          else selectLoop r (total + p) rest) = some item
        rw [if_pos h]
      · have hsum : sumValues ((item, p) :: rest) = p + sumValues rest := by
          simp [sumValues]
        cases rest with
        | nil =>
            exfalso
            apply h
            rw [hsum] at hlt
            have h0 : sumValues ([] : List (κ × Rat)) = 0 := rfl
            rw [h0] at hlt
            linarith
        | cons q rest1 =>
            have hlt1 : r < (total + p) + sumValues (q :: rest1) := by
              rw [hsum] at hlt
              linarith
            obtain ⟨k, hk, hmem⟩ := ih (total + p) (by simp) hlt1
            refine ⟨k, ?_, List.mem_cons_of_mem _ hmem⟩
            show (if r < total + p then some item
              else selectLoop r (total + p) (q :: rest1)) = some k
            rw [if_neg h, hk]

/-- C6: for every distribution whose values are non-negative and sum to 1
(so for every enumeration order of such a distribution), and every draw `r`
with `0 ≤ r < 1`, `select_random` returns a key present in the
distribution; in particular the fall-through `assert False` branch after
the cumulative-sum loop (`selectLoop … = none`) is unreachable. -/
theorem select_random_mem {κ : Type} (d : List (κ × Rat)) (r : Rat)
    (hnn : ∀ p ∈ d.map (·.2), 0 ≤ p) (hsum : sumValues d = 1)
    (hr0 : 0 ≤ r) (hr1 : r < 1) :
    ∃ k, select_random r d = some k ∧ k ∈ d.map (·.1) := by
  have hne : d ≠ [] := by
    rintro rfl
    rw [show sumValues ([] : List (κ × Rat)) = 0 from rfl] at hsum
    exact absurd hsum (by norm_num)
  have hassert : |sumValues d - 1| < 1 / 1000000 := by rw [hsum]; norm_num
  have hlt : r < 0 + sumValues d := by rw [hsum]; linarith
  obtain ⟨k, hk, hmem⟩ := selectLoop_mem r d 0 hne hlt
  refine ⟨k, ?_, hmem⟩
  unfold select_random
  rw [if_pos hassert, hk]

theorem select_random_mem_witness :
    ∃ k, select_random 0 [(("a" : Token), (1 : Rat))] = some k ∧
      k ∈ [(("a" : Token), (1 : Rat))].map (·.1) :=
  select_random_mem [(("a" : Token), (1 : Rat))] 0 (by simp)
    (by simp [sumValues]) le_rfl (by norm_num)

/-! ## Normalization: `counts_to_probabilities` (C5) -/

theorem sum_map_cast_div {κ : Type} (l : List (κ × Nat)) (x : Rat) :
    (l.map (fun kv => ((kv.2 : Nat) : Rat) / x)).sum =
      (((l.map (·.2)).sum : Nat) : Rat) / x := by
  induction l with
  | nil => simp
  | cons a l ih =>
      simp only [List.map_cons, List.sum_cons, ih]
      push_cast
      rw [add_div]

/-- C5: on a non-empty count table with positive total (counts are `Nat`, so
non-negativity is the type), `counts_to_probabilities` succeeds, keeps
exactly the keys of the input in order, maps each key's count `c` to
`c / total`, and the resulting values sum to exactly 1 in rational
arithmetic. -/
theorem counts_to_probabilities_correct {κ : Type} [DecidableEq κ]
    (counts : List (κ × Nat)) (hne : counts ≠ [])
    (hpos : 0 < (counts.map (·.2)).sum) :
    ∃ probs, counts_to_probabilities counts = some probs ∧
      probs.map (·.1) = counts.map (·.1) ∧
      (∀ k c, lookup counts k = some c →
        lookup probs k =
          some ((c : Rat) / (((counts.map (·.2)).sum : Nat) : Rat))) ∧
      sumValues probs = 1 := by
  have htot : (counts.map (·.2)).sum ≠ 0 := Nat.pos_iff_ne_zero.mp hpos
  obtain ⟨kv0, rest, rfl⟩ : ∃ kv0 rest, counts = kv0 :: rest := by
    cases counts with
    | nil => exact absurd rfl hne
    | cons kv0 rest => exact ⟨kv0, rest, rfl⟩
  refine ⟨((kv0 :: rest).map
      (fun kv => (kv.1, (kv.2 : Rat) / ((((kv0 :: rest).map (·.2)).sum : Nat) : Rat)))),
    ?_, ?_, ?_, ?_⟩
  · simp only [counts_to_probabilities]
    rw [if_neg htot]
  · simp [List.map_map]
  · intro k c h
    rw [lookup_div_map, h]
    simp
  · have hx : ((((kv0 :: rest).map (·.2)).sum : Nat) : Rat) ≠ 0 :=
      Nat.cast_ne_zero.mpr htot
    unfold sumValues
    rw [List.map_map]
    have hcomp : ((fun (x : κ × Rat) => x.2) ∘
        (fun (kv : κ × Nat) =>
          (kv.1, (kv.2 : Rat) / ((((kv0 :: rest).map (·.2)).sum : Nat) : Rat)))) =
        (fun (kv : κ × Nat) =>
          ((kv.2 : Nat) : Rat) / ((((kv0 :: rest).map (·.2)).sum : Nat) : Rat)) := rfl
    rw [hcomp, sum_map_cast_div, div_self hx]

theorem counts_to_probabilities_correct_witness :
    ∃ probs,
      counts_to_probabilities
          ([(("a" : Token), 9), (("b" : Token), 1)] : List (Token × Nat)) =
        some probs ∧
      probs.map (·.1) =
        ([(("a" : Token), 9), (("b" : Token), 1)] : List (Token × Nat)).map
          (·.1) ∧
      (∀ k c,
        lookup ([(("a" : Token), 9), (("b" : Token), 1)] : List (Token × Nat))
            k = some c →
        lookup probs k =
          some ((c : Rat) /
            (((([(("a" : Token), 9), (("b" : Token), 1)] :
                List (Token × Nat)).map (·.2)).sum : Nat) : Rat))) ∧
      sumValues probs = 1 :=
  counts_to_probabilities_correct [("a", 9), ("b", 1)] (by simp) (by decide)

/-! ## Model construction: C4 -/

def InnerOK {κ : Type} (grams : List (κ × List (Token × Nat))) : Prop :=
  ∀ p ∈ grams, p.2 ≠ [] ∧ ∀ q ∈ p.2, 1 ≤ q.2

theorem InnerOK_nil {κ : Type} :
    InnerOK ([] : List (κ × List (Token × Nat))) := by
  intro p hp
  simp at hp

theorem incrCount_ne_nil (inner : List (Token × Nat)) (nxt : Token) :
    incrCount inner nxt ≠ [] := by
  unfold incrCount
  cases hl : lookup inner nxt with
  | none => exact update_ne_nil inner nxt 1
  | some c => exact update_ne_nil inner nxt (c + 1)

theorem incrCount_values (inner : List (Token × Nat)) (nxt : Token)
    (h : ∀ q ∈ inner, 1 ≤ q.2) : ∀ q ∈ incrCount inner nxt, 1 ≤ q.2 := by
  unfold incrCount
  cases hl : lookup inner nxt with
  | none =>
      intro q hq
      rcases mem_update inner nxt 1 q hq with h1 | h1
      · exact h q h1
      · rw [h1]
  | some c =>
      intro q hq
      rcases mem_update inner nxt (c + 1) q hq with h1 | h1
      · exact h q h1
      · rw [h1]
        exact Nat.le_add_left 1 c

theorem innerCounts_values {κ : Type} [DecidableEq κ]
    (grams : List (κ × List (Token × Nat))) (ctx : κ) (hok : InnerOK grams) :
    ∀ q ∈ innerCounts grams ctx, 1 ≤ q.2 := by
  unfold innerCounts
  cases hl : lookup grams ctx with
  | none => intro q hq; simp at hq
  | some inner =>
      intro q hq
      exact (hok (ctx, inner) (lookup_mem grams ctx inner hl)).2 q hq

theorem InnerOK_gramCountStep {κ : Type} [DecidableEq κ]
    (grams : List (κ × List (Token × Nat))) (ctx : κ) (nxt : Token)
    (hok : InnerOK grams) : InnerOK (gramCountStep grams ctx nxt) := by
  intro p hp
  rcases mem_update grams ctx (incrCount (innerCounts grams ctx) nxt) p hp
    with h1 | h1
  · exact hok p h1
  · rw [h1]
    exact ⟨incrCount_ne_nil _ _,
      incrCount_values _ _ (innerCounts_values grams ctx hok)⟩

theorem counts_to_probabilities_isSome {κ : Type} (cnts : List (κ × Nat))
    (hne : cnts ≠ []) (h1 : ∀ q ∈ cnts, 1 ≤ q.2) :
    ∃ d, counts_to_probabilities cnts = some d := by
  cases cnts with
  | nil => exact absurd rfl hne
  | cons q rest =>
      have hq : 1 ≤ q.2 := h1 q (by simp)
      have hpos : ((q :: rest).map (·.2)).sum ≠ 0 := by
        simp only [List.map_cons, List.sum_cons]
        omega
      refine ⟨(q :: rest).map
        (fun kv => (kv.1, (kv.2 : Rat) / ((((q :: rest).map (·.2)).sum : Nat) : Rat))), ?_⟩
      simp only [counts_to_probabilities]
      rw [if_neg hpos]

theorem normAll_update {κ : Type} [DecidableEq κ] :
    ∀ (grams : List (κ × List (Token × Nat))) (tmp : List (κ × Dist Token))
      (ctx : κ) (newInner : List (Token × Nat)) (d : Dist Token),
      normAll grams = some tmp → counts_to_probabilities newInner = some d →
      normAll (update grams ctx newInner) = some (update tmp ctx d) := by
  intro grams
  induction grams with
  | nil =>
      intro tmp ctx newInner d h hd
      simp [normAll] at h
      subst h
      simp [update, normAll, hd]
  | cons kv rest ih =>
      intro tmp ctx newInner d h hd
      obtain ⟨k0, cnts0⟩ := kv
      cases h0 : counts_to_probabilities cnts0 with
      | none => simp [normAll, h0] at h
      | some d0 =>
          cases h1 : normAll rest with
          | none => simp [normAll, h0, h1] at h
          | some t =>
              simp [normAll, h0, h1] at h
              subst h
              by_cases hc : ctx = k0
              · subst hc
                have hu1 : update ((ctx, cnts0) :: rest) ctx newInner =
                    (ctx, newInner) :: rest := by simp [update]
                have hu2 : update ((ctx, d0) :: t) ctx d = (ctx, d) :: t := by
                  simp [update]
                rw [hu1, hu2]
                simp [normAll, hd, h1]
              · have hu1 : update ((k0, cnts0) :: rest) ctx newInner =
                    (k0, cnts0) :: update rest ctx newInner := by
                  simp [update, hc]
                have hu2 : update ((k0, d0) :: t) ctx d =
                    (k0, d0) :: update t ctx d := by simp [update, hc]
                rw [hu1, hu2]
                simp [normAll, h0, ih t ctx newInner d h1 hd]

theorem gramsGo_eq_countThenNormalize {κ : Type} [DecidableEq κ] :
    ∀ (items : List (κ × Token)) (grams : List (κ × List (Token × Nat)))
      (tmp : List (κ × Dist Token)),
      InnerOK grams → normAll grams = some tmp →
      gramsGo items grams tmp =
        normAll (items.foldl (fun g it => gramCountStep g it.1 it.2) grams) := by
  intro items
  induction items with
  | nil =>
      intro grams tmp hok hn
      simp [gramsGo, List.foldl]
      exact hn.symm
  | cons it rest ih =>
      intro grams tmp hok hn
      obtain ⟨ctx, nxt⟩ := it
      have hok1 : InnerOK (gramCountStep grams ctx nxt) :=
        InnerOK_gramCountStep grams ctx nxt hok
      have hlk : lookup (gramCountStep grams ctx nxt) ctx =
          some (incrCount (innerCounts grams ctx) nxt) :=
        lookup_update_self grams ctx _
      obtain ⟨d, hd⟩ := counts_to_probabilities_isSome
        (incrCount (innerCounts grams ctx) nxt)
        (incrCount_ne_nil _ _)
        (incrCount_values _ _ (innerCounts_values grams ctx hok))
      have hn1 : normAll (gramCountStep grams ctx nxt) =
          some (update tmp ctx d) :=
        normAll_update grams tmp ctx _ d hn hd
      calc gramsGo ((ctx, nxt) :: rest) grams tmp
      _ = gramsGo rest (gramCountStep grams ctx nxt) (update tmp ctx d) := by
        simp only [gramsGo, hlk, Option.getD_some, hd]
      _ = normAll (rest.foldl (fun g it => gramCountStep g it.1 it.2)
            (gramCountStep grams ctx nxt)) := ih _ _ hok1 hn1
      _ = normAll (((ctx, nxt) :: rest).foldl
            (fun g it => gramCountStep g it.1 it.2) grams) := by
        simp [List.foldl_cons]

/-- C4: for every token sequence, `calculate_bigrams` and
`calculate_trigrams` — which re-normalize a context's distribution after
each counted pair/triple, overwriting the previous normalization — return
exactly the same model as the spec's algorithm (`countThenNormalize`) that
first counts all pairs/triples and only then normalizes each context's
count table once. -/
theorem calculate_grams_eq_count_then_normalize (word_list : List Token) :
    calculate_bigrams word_list =
      countThenNormalize (word_list.zip word_list.tail) ∧
    calculate_trigrams word_list =
      countThenNormalize
        ((word_list.zip word_list.tail).zip word_list.tail.tail) := by
  constructor
  · exact gramsGo_eq_countThenNormalize (word_list.zip word_list.tail) [] []
      InnerOK_nil rfl
  · exact gramsGo_eq_countThenNormalize
      ((word_list.zip word_list.tail).zip word_list.tail.tail) [] []
      InnerOK_nil rfl

/-! ## Conditional evaluation equations for the generators -/

theorem unigram_go_zero (unigrams : Dist Token) (rands : Nat → Rat) (i : Nat) :
    random_unigram_go unigrams rands i 0 = some [] := rfl

theorem unigram_go_succ_none (unigrams : Dist Token) (rands : Nat → Rat)
    (i n : Nat) (hs : select_random (rands i) unigrams = none) :
    random_unigram_go unigrams rands i (n + 1) = none := by
  have e : random_unigram_go unigrams rands i (n + 1) =
      match select_random (rands i) unigrams with
      | none => none
      | some next_word =>
          (random_unigram_go unigrams rands (i + 1) n).map
            (fun rest => next_word :: rest) := rfl
  rw [e, hs]

theorem unigram_go_succ_some (unigrams : Dist Token) (rands : Nat → Rat)
    (i n : Nat) (w : Token) (hs : select_random (rands i) unigrams = some w) :
    random_unigram_go unigrams rands i (n + 1) =
      (random_unigram_go unigrams rands (i + 1) n).map
        (fun rest => w :: rest) := by
  have e : random_unigram_go unigrams rands i (n + 1) =
      match select_random (rands i) unigrams with
      | none => none
      | some next_word =>
          (random_unigram_go unigrams rands (i + 1) n).map
            (fun rest => next_word :: rest) := rfl
  rw [e, hs]

theorem bigram_go_zero (bigrams : List (Token × Dist Token))
    (rands : Nat → Rat) (next_word : Token) (i : Nat) :
    random_bigram_go bigrams rands next_word i 0 = some [] := rfl

theorem bigram_go_succ_eq (bigrams : List (Token × Dist Token))
    (rands : Nat → Rat) (next_word : Token) (i n : Nat) :
    random_bigram_go bigrams rands next_word i (n + 1) =
      match lookup bigrams next_word with
      | none => none
      | some d =>
          match select_random (rands i) d with
          | none => none
          | some w =>
              (random_bigram_go bigrams rands w (i + 1) n).map
                (fun rest => w :: rest) := rfl

theorem bigram_go_succ_key_none (bigrams : List (Token × Dist Token))
    (rands : Nat → Rat) (next_word : Token) (i n : Nat)
    (h1 : lookup bigrams next_word = none) :
    random_bigram_go bigrams rands next_word i (n + 1) = none := by
  rw [bigram_go_succ_eq, h1]

theorem bigram_go_succ_key_some (bigrams : List (Token × Dist Token))
    (rands : Nat → Rat) (next_word : Token) (i n : Nat) (d : Dist Token)
    (h1 : lookup bigrams next_word = some d) :
    random_bigram_go bigrams rands next_word i (n + 1) =
      match select_random (rands i) d with
      | none => none
      | some w =>
          (random_bigram_go bigrams rands w (i + 1) n).map
            (fun rest => w :: rest) := by
  rw [bigram_go_succ_eq, h1]

theorem bigram_go_succ_sel_none (bigrams : List (Token × Dist Token))
    (rands : Nat → Rat) (next_word : Token) (i n : Nat) (d : Dist Token)
    (h1 : lookup bigrams next_word = some d)
    (hs : select_random (rands i) d = none) :
    random_bigram_go bigrams rands next_word i (n + 1) = none := by
  rw [bigram_go_succ_key_some bigrams rands next_word i n d h1, hs]

theorem bigram_go_succ_sel_some (bigrams : List (Token × Dist Token))
    (rands : Nat → Rat) (next_word : Token) (i n : Nat) (d : Dist Token)
    (w : Token) (h1 : lookup bigrams next_word = some d)
    (hs : select_random (rands i) d = some w) :
    random_bigram_go bigrams rands next_word i (n + 1) =
      (random_bigram_go bigrams rands w (i + 1) n).map
        (fun rest => w :: rest) := by
  rw [bigram_go_succ_key_some bigrams rands next_word i n d h1, hs]

theorem trigram_go_zero (bigrams : List (Token × Dist Token))
    (trigrams : List ((Token × Token) × Dist Token)) (rands : Nat → Rat)
    (first_word second_word : Token) (i : Nat) :
    random_trigram_go bigrams trigrams rands first_word second_word i 0 =
      some [] := rfl

theorem trigram_go_succ_eq (bigrams : List (Token × Dist Token))
    (trigrams : List ((Token × Token) × Dist Token)) (rands : Nat → Rat)
    (first_word second_word : Token) (i n : Nat) :
    random_trigram_go bigrams trigrams rands first_word second_word i (n + 1) =
      match lookup trigrams (first_word, second_word) with
      | some d =>
          match select_random (rands i) d with
          | none => none
          | some next_word =>
              (random_trigram_go bigrams trigrams rands second_word next_word
                  (i + 1) n).map (fun rest => next_word :: rest)
      | none =>
          match lookup bigrams first_word with
          | none => none
          | some d =>
              match select_random (rands i) d with
              | none => none
              | some next_word =>
                  (random_trigram_go bigrams trigrams rands second_word
                      next_word (i + 1) n).map
                    (fun rest => next_word :: rest) := rfl

theorem trigram_go_succ_tri_some (bigrams : List (Token × Dist Token))
    (trigrams : List ((Token × Token) × Dist Token)) (rands : Nat → Rat)
    (first_word second_word : Token) (i n : Nat) (d : Dist Token)
    (h1 : lookup trigrams (first_word, second_word) = some d) :
    random_trigram_go bigrams trigrams rands first_word second_word i (n + 1) =
      match select_random (rands i) d with
      | none => none
      | some w =>
          (random_trigram_go bigrams trigrams rands second_word w (i + 1)
              n).map (fun rest => w :: rest) := by
  rw [trigram_go_succ_eq, h1]

theorem trigram_go_succ_tri_none (bigrams : List (Token × Dist Token))
    (trigrams : List ((Token × Token) × Dist Token)) (rands : Nat → Rat)
    (first_word second_word : Token) (i n : Nat)
    (h1 : lookup trigrams (first_word, second_word) = none) :
    random_trigram_go bigrams trigrams rands first_word second_word i (n + 1) =
      match lookup bigrams first_word with
      | none => none
      | some d =>
          match select_random (rands i) d with
          | none => none
          | some w =>
              (random_trigram_go bigrams trigrams rands second_word w (i + 1)
                  n).map (fun rest => w :: rest) := by
  rw [trigram_go_succ_eq, h1]

theorem trigram_go_succ_tri_sel_none (bigrams : List (Token × Dist Token))
    (trigrams : List ((Token × Token) × Dist Token)) (rands : Nat → Rat)
    (first_word second_word : Token) (i n : Nat) (d : Dist Token)
    (h1 : lookup trigrams (first_word, second_word) = some d)
    (hs : select_random (rands i) d = none) :
    random_trigram_go bigrams trigrams rands first_word second_word i (n + 1) =
      none := by
  rw [trigram_go_succ_tri_some bigrams trigrams rands first_word second_word
    i n d h1, hs]

theorem trigram_go_succ_tri_sel_some (bigrams : List (Token × Dist Token))
    (trigrams : List ((Token × Token) × Dist Token)) (rands : Nat → Rat)
    (first_word second_word : Token) (i n : Nat) (d : Dist Token) (w : Token)
    (h1 : lookup trigrams (first_word, second_word) = some d)
    (hs : select_random (rands i) d = some w) :
    random_trigram_go bigrams trigrams rands first_word second_word i (n + 1) =
      (random_trigram_go bigrams trigrams rands second_word w (i + 1) n).map
        (fun rest => w :: rest) := by
  rw [trigram_go_succ_tri_some bigrams trigrams rands first_word second_word
    i n d h1, hs]

theorem trigram_go_succ_both_none (bigrams : List (Token × Dist Token))
    (trigrams : List ((Token × Token) × Dist Token)) (rands : Nat → Rat)
    (first_word second_word : Token) (i n : Nat)
    (h1 : lookup trigrams (first_word, second_word) = none)
    (h2 : lookup bigrams first_word = none) :
    random_trigram_go bigrams trigrams rands first_word second_word i (n + 1) =
      none := by
  rw [trigram_go_succ_tri_none bigrams trigrams rands first_word second_word
    i n h1, h2]

theorem trigram_go_succ_bi_some (bigrams : List (Token × Dist Token))
    (trigrams : List ((Token × Token) × Dist Token)) (rands : Nat → Rat)
    (first_word second_word : Token) (i n : Nat) (d : Dist Token)
    (h1 : lookup trigrams (first_word, second_word) = none)
    (h2 : lookup bigrams first_word = some d) :
    random_trigram_go bigrams trigrams rands first_word second_word i (n + 1) =
      match select_random (rands i) d with
      | none => none
      | some w =>
          (random_trigram_go bigrams trigrams rands second_word w (i + 1)
              n).map (fun rest => w :: rest) := by
  rw [trigram_go_succ_tri_none bigrams trigrams rands first_word second_word
    i n h1, h2]

theorem trigram_go_succ_bi_sel_none (bigrams : List (Token × Dist Token))
    (trigrams : List ((Token × Token) × Dist Token)) (rands : Nat → Rat)
    (first_word second_word : Token) (i n : Nat) (d : Dist Token)
    (h1 : lookup trigrams (first_word, second_word) = none)
    (h2 : lookup bigrams first_word = some d)
    (hs : select_random (rands i) d = none) :
    random_trigram_go bigrams trigrams rands first_word second_word i (n + 1) =
      none := by
  rw [trigram_go_succ_bi_some bigrams trigrams rands first_word second_word
    i n d h1 h2, hs]

theorem trigram_go_succ_bi_sel_some (bigrams : List (Token × Dist Token))
    (trigrams : List ((Token × Token) × Dist Token)) (rands : Nat → Rat)
    (first_word second_word : Token) (i n : Nat) (d : Dist Token) (w : Token)
    (h1 : lookup trigrams (first_word, second_word) = none)
    (h2 : lookup bigrams first_word = some d)
    (hs : select_random (rands i) d = some w) :
    random_trigram_go bigrams trigrams rands first_word second_word i (n + 1) =
      (random_trigram_go bigrams trigrams rands second_word w (i + 1) n).map
        (fun rest => w :: rest) := by
  rw [trigram_go_succ_bi_some bigrams trigrams rands first_word second_word
    i n d h1 h2, hs]

theorem bigram_text_eq (first_word : Token)
    (bigrams : List (Token × Dist Token)) (num_words : Int)
    (rands : Nat → Rat) :
    random_bigram_text first_word bigrams num_words rands =
      match lookup bigrams first_word with
      | none => none
      | some d =>
          match select_random (rands 0) d with
          | none => none
          | some next_word =>
              (random_bigram_go bigrams rands next_word 1
                  (num_words - 2).toNat).map
                (fun rest => first_word :: next_word :: rest) := rfl

theorem trigram_text_eq (first_word second_word : Token)
    (bigrams : List (Token × Dist Token))
    (trigrams : List ((Token × Token) × Dist Token)) (num_words : Int)
    (rands : Nat → Rat) :
    random_trigram_text first_word second_word bigrams trigrams num_words
        rands =
      match lookup trigrams (first_word, second_word) with
      | none => none
      | some d =>
          match select_random (rands 0) d with
          | none => none
          | some next_word =>
              (random_trigram_go bigrams trigrams rands second_word next_word 1
                  (num_words - 2).toNat).map
                (fun rest => first_word :: second_word :: rest) := rfl

theorem bigram_text_key_none (first_word : Token)
    (bigrams : List (Token × Dist Token)) (num_words : Int)
    (rands : Nat → Rat) (h1 : lookup bigrams first_word = none) :
    random_bigram_text first_word bigrams num_words rands = none := by
  rw [bigram_text_eq, h1]

theorem bigram_text_key_some (first_word : Token)
    (bigrams : List (Token × Dist Token)) (num_words : Int)
    (rands : Nat → Rat) (d : Dist Token)
    (h1 : lookup bigrams first_word = some d) :
    random_bigram_text first_word bigrams num_words rands =
      match select_random (rands 0) d with
      | none => none
      | some next_word =>
          (random_bigram_go bigrams rands next_word 1
              (num_words - 2).toNat).map
            (fun rest => first_word :: next_word :: rest) := by
  rw [bigram_text_eq, h1]

theorem bigram_text_sel_none (first_word : Token)
    (bigrams : List (Token × Dist Token)) (num_words : Int)
    (rands : Nat → Rat) (d : Dist Token)
    (h1 : lookup bigrams first_word = some d)
    (hs : select_random (rands 0) d = none) :
    random_bigram_text first_word bigrams num_words rands = none := by
  rw [bigram_text_key_some first_word bigrams num_words rands d h1, hs]

theorem bigram_text_sel_some (first_word : Token)
    (bigrams : List (Token × Dist Token)) (num_words : Int)
    (rands : Nat → Rat) (d : Dist Token) (next_word : Token)
    (h1 : lookup bigrams first_word = some d)
    (hs : select_random (rands 0) d = some next_word) :
    random_bigram_text first_word bigrams num_words rands =
      (random_bigram_go bigrams rands next_word 1 (num_words - 2).toNat).map
        (fun rest => first_word :: next_word :: rest) := by
  rw [bigram_text_key_some first_word bigrams num_words rands d h1, hs]

theorem trigram_text_key_none (first_word second_word : Token)
    (bigrams : List (Token × Dist Token))
    (trigrams : List ((Token × Token) × Dist Token)) (num_words : Int)
    (rands : Nat → Rat)
    (h1 : lookup trigrams (first_word, second_word) = none) :
    random_trigram_text first_word second_word bigrams trigrams num_words
      rands = none := by
  rw [trigram_text_eq, h1]

theorem trigram_text_key_some (first_word second_word : Token)
    (bigrams : List (Token × Dist Token))
    (trigrams : List ((Token × Token) × Dist Token)) (num_words : Int)
    (rands : Nat → Rat) (d : Dist Token)
    (h1 : lookup trigrams (first_word, second_word) = some d) :
    random_trigram_text first_word second_word bigrams trigrams num_words
        rands =
      match select_random (rands 0) d with
      | none => none
      | some next_word =>
          (random_trigram_go bigrams trigrams rands second_word next_word 1
              (num_words - 2).toNat).map
            (fun rest => first_word :: second_word :: rest) := by
  rw [trigram_text_eq, h1]

theorem trigram_text_sel_none (first_word second_word : Token)
    (bigrams : List (Token × Dist Token))
    (trigrams : List ((Token × Token) × Dist Token)) (num_words : Int)
    (rands : Nat → Rat) (d : Dist Token)
    (h1 : lookup trigrams (first_word, second_word) = some d)
    (hs : select_random (rands 0) d = none) :
    random_trigram_text first_word second_word bigrams trigrams num_words
      rands = none := by
  rw [trigram_text_key_some first_word second_word bigrams trigrams num_words
    rands d h1, hs]

theorem trigram_text_sel_some (first_word second_word : Token)
    (bigrams : List (Token × Dist Token))
    (trigrams : List ((Token × Token) × Dist Token)) (num_words : Int)
    (rands : Nat → Rat) (d : Dist Token) (next_word : Token)
    (h1 : lookup trigrams (first_word, second_word) = some d)
    (hs : select_random (rands 0) d = some next_word) :
    random_trigram_text first_word second_word bigrams trigrams num_words
        rands =
      (random_trigram_go bigrams trigrams rands second_word next_word 1
          (num_words - 2).toNat).map
        (fun rest => first_word :: second_word :: rest) := by
  rw [trigram_text_key_some first_word second_word bigrams trigrams num_words
    rands d h1, hs]

/-! ## Generation lengths (C9) -/

theorem random_unigram_go_length (unigrams : Dist Token) (rands : Nat → Rat) :
    ∀ (n i : Nat) (out : List Token),
      random_unigram_go unigrams rands i n = some out → out.length = n := by
  intro n
  induction n with
  | zero =>
      intro i out h
      rw [unigram_go_zero] at h
      obtain rfl : out = [] := (Option.some.inj h).symm
      rfl
  | succ n ih =>
      intro i out h
      cases hs : select_random (rands i) unigrams with
      | none => rw [unigram_go_succ_none unigrams rands i n hs] at h; cases h
      | some w =>
          rw [unigram_go_succ_some unigrams rands i n w hs,
            Option.map_eq_some'] at h
          obtain ⟨rest, hrest, hout⟩ := h
          rw [← hout]
          simp [ih _ _ hrest]

theorem random_bigram_go_length (bigrams : List (Token × Dist Token))
    (rands : Nat → Rat) :
    ∀ (n : Nat) (next_word : Token) (i : Nat) (out : List Token),
      random_bigram_go bigrams rands next_word i n = some out →
      out.length = n := by
  intro n
  induction n with
  | zero =>
      intro next_word i out h
      rw [bigram_go_zero] at h
      obtain rfl : out = [] := (Option.some.inj h).symm
      rfl
  | succ n ih =>
      intro next_word i out h
      cases h1 : lookup bigrams next_word with
      | none =>
          rw [bigram_go_succ_key_none bigrams rands next_word i n h1] at h
          cases h
      | some d =>
          cases hs : select_random (rands i) d with
          | none =>
              rw [bigram_go_succ_sel_none bigrams rands next_word i n d h1
                hs] at h
              cases h
          | some w =>
              rw [bigram_go_succ_sel_some bigrams rands next_word i n d w h1
                hs, Option.map_eq_some'] at h
              obtain ⟨rest, hrest, hout⟩ := h
              rw [← hout]
              simp [ih _ _ _ hrest]

theorem random_trigram_go_length (bigrams : List (Token × Dist Token))
    (trigrams : List ((Token × Token) × Dist Token)) (rands : Nat → Rat) :
    ∀ (n : Nat) (first_word second_word : Token) (i : Nat) (out : List Token),
      random_trigram_go bigrams trigrams rands first_word second_word i n =
        some out → out.length = n := by
  intro n
  induction n with
  | zero =>
      intro fw sw i out h
      rw [trigram_go_zero] at h
      obtain rfl : out = [] := (Option.some.inj h).symm
      rfl
  | succ n ih =>
      intro fw sw i out h
      cases h1 : lookup trigrams (fw, sw) with
      | some d =>
          cases hs : select_random (rands i) d with
          | none =>
              rw [trigram_go_succ_tri_sel_none bigrams trigrams rands fw sw
                i n d h1 hs] at h
              cases h
          | some w =>
              rw [trigram_go_succ_tri_sel_some bigrams trigrams rands fw sw
                i n d w h1 hs, Option.map_eq_some'] at h
              obtain ⟨rest, hrest, hout⟩ := h
              rw [← hout]
              simp [ih _ _ _ _ hrest]
      | none =>
          cases h2 : lookup bigrams fw with
          | none =>
              rw [trigram_go_succ_both_none bigrams trigrams rands fw sw
                i n h1 h2] at h
              cases h
          | some d =>
              cases hs : select_random (rands i) d with
              | none =>
                  rw [trigram_go_succ_bi_sel_none bigrams trigrams rands fw sw
                    i n d h1 h2 hs] at h
                  cases h
              | some w =>
                  rw [trigram_go_succ_bi_sel_some bigrams trigrams rands fw sw
                    i n d w h1 h2 hs, Option.map_eq_some'] at h
                  obtain ⟨rest, hrest, hout⟩ := h
                  rw [← hout]
                  simp [ih _ _ _ _ hrest]

/-- C9: on every successful generation call with a valid requested length,
the number of output tokens equals the requested length: `num_words` tokens
from `random_unigram_text` for `num_words ≥ 1`, and `num_words` tokens from
`random_bigram_text` / `random_trigram_text` for `num_words ≥ 2`. -/
theorem generation_length (unigrams : Dist Token)
    (first_word second_word : Token) (bigrams : List (Token × Dist Token))
    (trigrams : List ((Token × Token) × Dist Token)) (n : Int)
    (rands : Nat → Rat) :
    (1 ≤ n → ∀ out, random_unigram_text unigrams n rands = some out →
      (out.length : Int) = n) ∧
    (2 ≤ n → ∀ out, random_bigram_text first_word bigrams n rands = some out →
      (out.length : Int) = n) ∧
    (2 ≤ n → ∀ out,
      random_trigram_text first_word second_word bigrams trigrams n rands =
        some out → (out.length : Int) = n) := by
  refine ⟨?_, ?_, ?_⟩
  · intro hn out h
    have hl := random_unigram_go_length unigrams rands _ _ _ h
    omega
  · intro hn out h
    cases h1 : lookup bigrams first_word with
    | none => rw [bigram_text_key_none first_word bigrams n rands h1] at h; cases h
    | some d =>
        cases hs : select_random (rands 0) d with
        | none =>
            rw [bigram_text_sel_none first_word bigrams n rands d h1 hs] at h
            cases h
        | some w =>
            rw [bigram_text_sel_some first_word bigrams n rands d w h1 hs,
              Option.map_eq_some'] at h
            obtain ⟨rest, hrest, hout⟩ := h
            have hl := random_bigram_go_length bigrams rands _ _ _ _ hrest
            rw [← hout]
            simp only [List.length_cons, hl]
            omega
  · intro hn out h
    cases h1 : lookup trigrams (first_word, second_word) with
    | none =>
        rw [trigram_text_key_none first_word second_word bigrams trigrams n
          rands h1] at h
        cases h
    | some d =>
        cases hs : select_random (rands 0) d with
        | none =>
            rw [trigram_text_sel_none first_word second_word bigrams trigrams
              n rands d h1 hs] at h
            cases h
        | some w =>
            rw [trigram_text_sel_some first_word second_word bigrams trigrams
              n rands d w h1 hs, Option.map_eq_some'] at h
            obtain ⟨rest, hrest, hout⟩ := h
            have hl := random_trigram_go_length bigrams trigrams rands _ _ _ _
              _ hrest
            rw [← hout]
            simp only [List.length_cons, hl]
            omega

set_option maxHeartbeats 1000000 in
theorem generation_length_witness :
    (((["a", "a"] : List Token).length : Int) = 2) ∧
    (((["a", "b"] : List Token).length : Int) = 2) ∧
    (((["a", "b"] : List Token).length : Int) = 2) :=
  ⟨(generation_length [(("a" : Token), (1 : Rat))] "a" "b"
      [("a", [("b", 1)])] [(("a", "b"), [("c", 1)])] 2 (fun _ => 0)).1
      (by norm_num) ["a", "a"]
      (by simp [random_unigram_text, random_unigram_go, select_random,
        sumValues, selectLoop]),
    (generation_length [(("a" : Token), (1 : Rat))] "a" "b"
      [("a", [("b", 1)])] [(("a", "b"), [("c", 1)])] 2 (fun _ => 0)).2.1
      (by norm_num) ["a", "b"]
      (by simp [random_bigram_text, random_bigram_go, lookup,
        select_random, sumValues, selectLoop]),
    (generation_length [(("a" : Token), (1 : Rat))] "a" "b"
      [("a", [("b", 1)])] [(("a", "b"), [("c", 1)])] 2 (fun _ => 0)).2.2
      (by norm_num) ["a", "b"]
      (by simp [random_trigram_text, random_trigram_go, lookup,
        select_random, sumValues, selectLoop])⟩

/-! ## Trigram fallback keying (C2), low-count behavior (C10, C7) -/

/-- C2: in the generation loop of `random_trigram_text`, at a step whose
rolling two-token context `(first_word, second_word)` is not a key of the
trigram model, the next token is sampled from the bigram model's
distribution for `first_word` — the older of the two context tokens, never
the more recent `second_word` — and that sampled token is the one appended
at this step.  The statement quantifies over every step (any loop state
`i`, `n`, any models), so it covers every generation step of every call. -/
theorem trigram_fallback_keyed_by_older (bigrams : List (Token × Dist Token))
    (trigrams : List ((Token × Token) × Dist Token)) (rands : Nat → Rat)
    (first_word second_word : Token) (i n : Nat) (d : Dist Token) (w : Token)
    (hmiss : lookup trigrams (first_word, second_word) = none)
    (hbi : lookup bigrams first_word = some d)
    (hsel : select_random (rands i) d = some w) :
    random_trigram_go bigrams trigrams rands first_word second_word i (n + 1) =
      (random_trigram_go bigrams trigrams rands second_word w (i + 1) n).map
        (fun rest => w :: rest) :=
  trigram_go_succ_bi_sel_some bigrams trigrams rands first_word second_word
    i n d w hmiss hbi hsel

theorem trigram_fallback_keyed_by_older_witness :
    random_trigram_go
        [(("a" : Token), [(("b" : Token), (1 : Rat))]),
          ("b", [("c", (1 : Rat) / 2), ("d", (1 : Rat) / 2)]),
          ("c", [("a", 1)])]
        [((("a" : Token), ("b" : Token)),
            [(("c" : Token), (1 : Rat) / 2), ("d", (1 : Rat) / 2)]),
          (("b", "c"), [("a", 1)]), (("c", "a"), [("b", 1)])]
        (fun _ => 0) "c" "b" 1 1 = some ["a"] :=
  (trigram_fallback_keyed_by_older
      [(("a" : Token), [(("b" : Token), (1 : Rat))]),
        ("b", [("c", (1 : Rat) / 2), ("d", (1 : Rat) / 2)]),
        ("c", [("a", 1)])]
      [((("a" : Token), ("b" : Token)),
          [(("c" : Token), (1 : Rat) / 2), ("d", (1 : Rat) / 2)]),
        (("b", "c"), [("a", 1)]), (("c", "a"), [("b", 1)])]
      (fun _ => 0) "c" "b" 1 0 [("a", 1)] "a" rfl rfl
      (by norm_num [select_random, sumValues, selectLoop])).trans
    (by simp [trigram_go_zero])

/-- C10: for every requested length `num_words ≤ 2` (including 0 and
negative values) and every first word that is a key of the bigram model,
`random_bigram_text` runs its loop zero times, so its whole behavior is the
single mandatory sample from the seed's distribution: on success the output
is exactly the seed followed by that sample (two tokens), and the only
alternative is the sampler's failure — never an output of fewer than two
tokens. -/
theorem random_bigram_text_low_count (first_word : Token)
    (bigrams : List (Token × Dist Token)) (n : Int) (rands : Nat → Rat)
    (d : Dist Token) (hn : n ≤ 2) (hfw : lookup bigrams first_word = some d) :
    random_bigram_text first_word bigrams n rands =
      (select_random (rands 0) d).map (fun w => [first_word, w]) := by
  have h0 : (n - 2).toNat = 0 := by omega
  cases hs : select_random (rands 0) d with
  | none =>
      rw [bigram_text_sel_none first_word bigrams n rands d hfw hs]
      rfl
  | some w =>
      rw [bigram_text_sel_some first_word bigrams n rands d w hfw hs, h0,
        bigram_go_zero]
      rfl

theorem random_bigram_text_low_count_witness :
    random_bigram_text "i" [(("i" : Token), [(("think" : Token), (1 : Rat))])]
        (-1) (fun _ => 0) =
      (select_random 0 [(("think" : Token), (1 : Rat))]).map
        (fun w => ["i", w]) :=
  random_bigram_text_low_count "i"
    [(("i" : Token), [(("think" : Token), (1 : Rat))])] (-1) (fun _ => 0)
    [("think", 1)] (by norm_num) rfl

set_option maxHeartbeats 1000000 in
theorem bigram_count_one_returns_two_tokens :
    random_bigram_text "i" [(("i" : Token), [(("think" : Token), (1 : Rat))])]
        1 (fun _ => 0) = some ["i", "think"] ∧
    random_bigram_text "i" [(("i" : Token), [(("think" : Token), (1 : Rat))])]
        1 (fun _ => 0) ≠ none := by
  constructor
  · simp [random_bigram_text, random_bigram_go, lookup, select_random,
      sumValues, selectLoop]
  · simp [random_bigram_text, random_bigram_go, lookup, select_random,
      sumValues, selectLoop]

/-- C7 amended: no generation function validates the requested length, and
no InvalidArgument-style failure exists.  For a length below the minimum the
functions return short outputs instead: `random_unigram_text` with
`num_words ≤ 0` returns the empty sequence, and `random_bigram_text` /
`random_trigram_text` with `num_words ≤ 2` (hence below-minimum
`num_words < 2` too) run their loop zero times, returning exactly two
tokens on success. -/
theorem generation_no_minimum_length_check (unigrams : Dist Token)
    (first_word second_word : Token) (bigrams : List (Token × Dist Token))
    (trigrams : List ((Token × Token) × Dist Token)) (n : Int)
    (rands : Nat → Rat) (hn : n ≤ 2) :
    (n ≤ 0 → random_unigram_text unigrams n rands = some []) ∧
    (∀ out, random_bigram_text first_word bigrams n rands = some out →
      out.length = 2) ∧
    (∀ out,
      random_trigram_text first_word second_word bigrams trigrams n rands =
        some out → out = [first_word, second_word]) := by
  have h0 : (n - 2).toNat = 0 := by omega
  refine ⟨?_, ?_, ?_⟩
  · intro hn0
    have ht : n.toNat = 0 := by omega
    rw [random_unigram_text, ht, unigram_go_zero]
  · intro out h
    cases h1 : lookup bigrams first_word with
    | none =>
        rw [bigram_text_key_none first_word bigrams n rands h1] at h
        cases h
    | some d =>
        cases hs : select_random (rands 0) d with
        | none =>
            rw [bigram_text_sel_none first_word bigrams n rands d h1 hs] at h
            cases h
        | some w =>
            rw [bigram_text_sel_some first_word bigrams n rands d w h1 hs, h0,
              bigram_go_zero, Option.map_some'] at h
            obtain rfl : out = [first_word, w] := (Option.some.inj h).symm
            rfl
  · intro out h
    cases h1 : lookup trigrams (first_word, second_word) with
    | none =>
        rw [trigram_text_key_none first_word second_word bigrams trigrams n
          rands h1] at h
        cases h
    | some d =>
        cases hs : select_random (rands 0) d with
        | none =>
            rw [trigram_text_sel_none first_word second_word bigrams trigrams
              n rands d h1 hs] at h
            cases h
        | some w =>
            rw [trigram_text_sel_some first_word second_word bigrams trigrams
              n rands d w h1 hs, h0, trigram_go_zero, Option.map_some'] at h
            exact (Option.some.inj h).symm

set_option maxHeartbeats 1000000 in
theorem generation_no_minimum_length_check_witness :
    (random_unigram_text [(("a" : Token), (1 : Rat))] 0 (fun _ => 0) =
      some []) ∧
    ((["a", "b"] : List Token).length = 2) ∧
    ((["a", "b"] : List Token) = ["a", "b"]) :=
  ⟨(generation_no_minimum_length_check [(("a" : Token), (1 : Rat))] "a" "b"
      [("a", [("b", 1)])] [(("a", "b"), [("c", 1)])] 0 (fun _ => 0)
      (by norm_num)).1 (by norm_num),
    (generation_no_minimum_length_check [(("a" : Token), (1 : Rat))] "a" "b"
      [("a", [("b", 1)])] [(("a", "b"), [("c", 1)])] 0 (fun _ => 0)
      (by norm_num)).2.1 ["a", "b"]
      (by simp [random_bigram_text, random_bigram_go, lookup, select_random,
        sumValues, selectLoop]),
    (generation_no_minimum_length_check [(("a" : Token), (1 : Rat))] "a" "b"
      [("a", [("b", 1)])] [(("a", "b"), [("c", 1)])] 0 (fun _ => 0)
      (by norm_num)).2.2 ["a", "b"]
      (by simp [random_trigram_text, random_trigram_go, lookup, select_random,
        sumValues, selectLoop])⟩

/-! ## The pre-loop sample of `random_trigram_text` (C1, C3) and empty
normalization (C8) -/

set_option maxHeartbeats 1000000 in
/-- C1: concrete evaluation showing the claim's divergence from the code.
With bigram/trigram models built from `["a","b","c","d","e"]` and all random
draws 0, `random_trigram_text "a" "b" … 3` samples `"c"` from
`trigrams[("a","b")]` (the only continuation of that context, probability
1), yet outputs `["a","b","d"]`: the sampled `"c"` is never appended, and
the third output token `"d"` is not even in the support of the distribution
for the preceding output pair `("a","b")` — it was drawn from
`trigrams[("b","c")]`, a context containing the discarded sample. -/
theorem trigram_discards_first_sample :
    calculate_bigrams ["a", "b", "c", "d", "e"] =
      some [("a", [("b", 1)]), ("b", [("c", 1)]), ("c", [("d", 1)]),
        ("d", [("e", 1)])] ∧
    calculate_trigrams ["a", "b", "c", "d", "e"] =
      some [(("a", "b"), [("c", 1)]), (("b", "c"), [("d", 1)]),
        (("c", "d"), [("e", 1)])] ∧
    lookup [((("a" : Token), ("b" : Token)), [(("c" : Token), (1 : Rat))]),
        (("b", "c"), [("d", 1)]), (("c", "d"), [("e", 1)])] ("a", "b") =
      some [("c", 1)] ∧
    select_random 0 [(("c" : Token), (1 : Rat))] = some "c" ∧
    random_trigram_text "a" "b"
        [("a", [("b", 1)]), ("b", [("c", 1)]), ("c", [("d", 1)]),
          ("d", [("e", 1)])]
        [(("a", "b"), [("c", 1)]), (("b", "c"), [("d", 1)]),
          (("c", "d"), [("e", 1)])] 3 (fun _ => 0) = some ["a", "b", "d"] ∧
    ("c" : Token) ∉ (["a", "b", "d"] : List Token) ∧
    lookup [(("c" : Token), (1 : Rat))] "d" = none := by
  refine ⟨?_, ?_, rfl, ?_, ?_, by simp, rfl⟩
  · simp [calculate_bigrams, gramsGo, gramCountStep, incrCount, innerCounts,
      lookup, update, counts_to_probabilities]
  · simp [calculate_trigrams, gramsGo, gramCountStep, incrCount, innerCounts,
      lookup, update, counts_to_probabilities]
  · simp [select_random, sumValues, selectLoop]
  · simp [random_trigram_text, random_trigram_go, lookup, select_random,
      sumValues, selectLoop]

set_option maxHeartbeats 1000000 in
/-- C3: concrete evaluation showing the claim's divergence from the code.
With the two-token corpus `["a","b"]`, the trigram model is empty while the
bigram model has the context `"a"`; still
`random_trigram_text "a" "b" … 3` fails (the bare
`trigrams[(first_word, second_word)]` indexing before the loop raises
`KeyError`) without ever consulting the bigram fallback, although the claim
says failure happens only when both lookups miss. -/
theorem trigram_seed_context_no_fallback :
    calculate_bigrams ["a", "b"] = some [("a", [("b", 1)])] ∧
    calculate_trigrams ["a", "b"] = some [] ∧
    lookup [(("a" : Token), [(("b" : Token), (1 : Rat))])] "a" =
      some [("b", 1)] ∧
    random_trigram_text "a" "b" [("a", [("b", 1)])] [] 3 (fun _ => 0) =
      none := by
  refine ⟨?_, ?_, rfl, ?_⟩
  · simp [calculate_bigrams, gramsGo, gramCountStep, incrCount, innerCounts,
      lookup, update, counts_to_probabilities]
  · simp [calculate_trigrams, gramsGo]
  · simp [random_trigram_text, lookup]

theorem normalize_empty_returns_empty :
    counts_to_probabilities ([] : List (Token × Nat)) = some [] ∧
    counts_to_probabilities ([] : List (Token × Nat)) ≠ none ∧
    calculate_unigrams [] = some [] ∧
    calculate_unigrams [] ≠ none :=
  ⟨rfl, fun h => Option.noConfusion h, rfl, fun h => Option.noConfusion h⟩

/-- C8 amended: `counts_to_probabilities` fails (Python `ZeroDivisionError`)
exactly when the count table is non-empty and its counts sum to 0; on the
empty table the loops run zero times and the empty mapping is returned
without error, and consequently `calculate_unigrams` applied to the empty
token sequence returns the empty model rather than failing. -/
theorem normalize_none_iff_nonempty_zero_sum :
    (∀ counts : List (Token × Nat),
      counts_to_probabilities counts = none ↔
        counts ≠ [] ∧ (counts.map (·.2)).sum = 0) ∧
    counts_to_probabilities ([] : List (Token × Nat)) = some [] ∧
    calculate_unigrams [] = some [] := by
  refine ⟨?_, rfl, rfl⟩
  intro counts
  cases counts with
  | nil => simp [counts_to_probabilities]
  | cons q rest =>
      by_cases h : ((q :: rest).map (·.2)).sum = 0
      · simp [counts_to_probabilities, h]
      · simp [counts_to_probabilities, h]

end TextGen
